import Mathlib

/-!
Verification development for the segment processing pipeline in
src/pages/api/processSegment.js: the transcript polling client, the
filter graph builder, the segment renderer invocation, the splitter
naming, and the request handler orchestration. Definitions are shallow
embeddings of the JavaScript source; external effects (filesystem,
HTTP, media engine) are modelled as environment inputs and an event
trace.
-/

/-- The single-quote character used by the drawtext directive quoting. -/
def quoteChar : Char := '\''

/-- The backslash character used by the escape replacement. -/
def backslashChar : Char := '\\'

/-- One-character escaping step of the builder; embeds the JavaScript
replacement transcript.replace of every single quote by a backslash
followed by a quote (processSegment.js line 72). -/
def escapeChar (c : Char) : List Char :=
  if c = quoteChar then [backslashChar, quoteChar] else [c]

/-- Escapes a caption character list exactly as the source replacement
does: each single quote becomes backslash-quote, all other characters
are kept. -/
def escapeList : List Char → List Char
  | [] => []
  | c :: cs => escapeChar c ++ escapeList cs

/-- The safeTranscript value of the source (line 72), as a String. -/
def safeTranscript (t : String) : String := String.mk (escapeList t.data)

/-- Inverse reading of the escape replacement: a backslash immediately
followed by a single quote is read back as one single quote. -/
def unescapeList : List Char → List Char
  | [] => []
  | [c] => [c]
  | c :: d :: rest2 =>
    if c = backslashChar ∧ d = quoteChar then quoteChar :: unescapeList rest2
    else c :: unescapeList (d :: rest2)

theorem escapeList_ne_nil_of_ne_nil (c : Char) (cs : List Char) :
    escapeList (c :: cs) ≠ [] := by
  simp only [escapeList, escapeChar]
  by_cases h : c = quoteChar <;> simp [h]

theorem escapeList_quote_head (cs : List Char) :
    escapeList (quoteChar :: cs) = backslashChar :: quoteChar :: escapeList cs := by
  simp [escapeList, escapeChar]

theorem escapeList_other_head (c : Char) (cs : List Char) (hc : c ≠ quoteChar) :
    escapeList (c :: cs) = c :: escapeList cs := by
  simp [escapeList, escapeChar, hc]

theorem escapeList_head_ne_quote (cs : List Char) (d : Char) (rest : List Char)
    (h : escapeList cs = d :: rest) : d ≠ quoteChar := by
  cases cs with
  | nil => simp [escapeList] at h
  | cons c cs2 =>
    by_cases hc : c = quoteChar
    · rw [hc, escapeList_quote_head] at h
      injection h with h1 h2
      rw [← h1]
      decide
    · rw [escapeList_other_head c cs2 hc] at h
      injection h with h1 h2
      rw [← h1]
      exact hc

/-- The escaping performed by the builder round-trips: reading the
escaped text back yields the original caption. -/
theorem unescape_escape (cs : List Char) : unescapeList (escapeList cs) = cs := by
  induction cs with
  | nil => simp [escapeList, unescapeList]
  | cons c cs ih =>
    by_cases hc : c = quoteChar
    · rw [hc, escapeList_quote_head]
      have hstep : unescapeList (backslashChar :: quoteChar :: escapeList cs) =
          quoteChar :: unescapeList (escapeList cs) := by
        simp [unescapeList]
      rw [hstep, ih]
    · rw [escapeList_other_head c cs hc]
      cases hrec : escapeList cs with
      | nil =>
        have hnil : cs = [] := by
          cases cs with
          | nil => rfl
          | cons x xs => exact absurd hrec (escapeList_ne_nil_of_ne_nil x xs)
        simp [hnil, escapeList, unescapeList]
      | cons d rest =>
        have hd : d ≠ quoteChar := escapeList_head_ne_quote cs d rest hrec
        have hstep : unescapeList (c :: d :: rest) = c :: unescapeList (d :: rest) := by
          simp [unescapeList, hd]
        rw [hstep, ← hrec, ih]

/-- Prepends a character to the token component of a scan result. -/
def prependTok (c : Char) (r : List Char × List Char) : List Char × List Char :=
  (c :: r.1, r.2)

/-- Modelled from the spec: the media engine that consumes the filter
graph is an external collaborator (spec sections 1 and 6), so its
option-value tokenizer is reproduced here from the quoting rules the
spec alludes to for the text-overlay directive (section 4.2): a value
ends at an unquoted terminator character, a backslash outside quotes
escapes the next character, a single quote starts a verbatim section
that runs until the next single quote, and inside such a section every
character (including backslash) is taken literally, so the quote
character itself can never occur inside a quoted section. The Bool
argument tells whether scanning is inside a quoted section. Returns
the parsed token and the unconsumed remainder. -/
def scanToken (term : Char) : Bool → List Char → List Char × List Char
  | _, [] => ([], [])
  | true, c :: rest =>
    if c = quoteChar then scanToken term false rest
    else prependTok c (scanToken term true rest)
  | false, c :: rest =>
    if c = quoteChar then scanToken term true rest
    else if c = backslashChar then
      match rest with
      | [] => ([], [])
      | d :: rest2 => prependTok d (scanToken term false rest2)
    else if c = term then ([], c :: rest)
    else prependTok c (scanToken term false rest)

/-- The colon character separating drawtext options in the directive. -/
def colonChar : Char := ':'

/-- The options that follow the text option inside the drawtext node
built at line 75 of the source. -/
def afterTextOptions : List Char :=
  (":fontsize=48:fontcolor=white:x=(w-text_w)/2:y=50").data

/-- The character sequence the builder emits for the text option value
of the drawtext node: the escaped caption wrapped in single quotes,
followed by the remaining options of the node (source line 75). -/
def emittedTextOption (caption : String) : List Char :=
  quoteChar :: (escapeList caption.data ++ (quoteChar :: afterTextOptions))

/-- The text option of the drawtext directive stays intact for a given
caption when the engine tokenizer, run on the emitted option value,
recovers exactly the caption as the option token and stops exactly at
the colon that starts the next option: the directive neither
terminates early nor swallows adjacent syntax. -/
def textOptionIntact (caption : String) : Bool :=
  let r := scanToken colonChar false (emittedTextOption caption)
  r.1 == caption.data && r.2 == afterTextOptions

/-- A caption without special characters. -/
def plainCaption : String := "hello"

/-- A caption containing a colon. -/
def colonCaption : String := String.mk ['a', ':', 'b']

/-- A caption containing a backslash. -/
def backslashCaption : String := String.mk ['a', '\\', 'b']

/-- A caption containing a single quote (the word: it, apostrophe, s). -/
def quoteCaption : String := String.mk ['i', 't', '\'', 's']

/-- Claim C1: for every caption containing a single quote, backslash,
or colon, the escaping of the Filter Graph Builder keeps the drawtext
directive intact and round-trips. The round-trip half holds for all
captions (second conjunct), and captions containing only a colon or a
backslash stay intact, but the escaping of a single quote as
backslash-quote is emitted inside a single-quoted section where a
backslash is literal and a quote ends the section, so a caption with a
single quote terminates the quoted section early and makes the
tokenizer swallow the adjacent options: the first conjunct evaluates
the builder on such a caption and the directive is not intact. -/
theorem C1_quote_caption_breaks_drawtext :
    (textOptionIntact plainCaption = true ∧
     textOptionIntact colonCaption = true ∧
     textOptionIntact backslashCaption = true ∧
     textOptionIntact quoteCaption = false) ∧
    (∀ cs : List Char, unescapeList (escapeList cs) = cs) :=
  ⟨by decide, unescape_escape⟩

/-- Options of one filter node, either the string form or the
key-value object form, as passed to complexFilter in the source. -/
inductive FilterOptions where
  | str (s : String)
  | kv (pairs : List (String × String))
deriving DecidableEq, Repr

/-- One node of the declarative filter graph, mirroring the objects
passed to complexFilter at lines 267 to 303 of the source: a filter
name, its options, its named inputs and its named output. -/
structure FilterNode where
  filter : String
  options : FilterOptions
  inputs : List String
  outputs : String
deriving DecidableEq, Repr

/-- The font file path used by the drawtext node (path.join of the
working directory with fonts/Roboto-Regular.ttf). -/
def fontPath (cwd : String) : String := cwd ++ "/fonts/Roboto-Regular.ttf"

/-- The fixed secondary overlay clip path (path.join of the working
directory with public/ss.mp4). -/
def ssClipPath (cwd : String) : String := cwd ++ "/public/ss.mp4"

/-- The declarative filter graph built by the source (lines 267 to
303): scale the primary input to 1080x1920, draw the caption text onto
it, scale the secondary input to height 300 preserving aspect ratio,
and composite the scaled secondary clip onto the captioned video. -/
def complexFilterNodes (cwd transcript : String) : List FilterNode :=
  [ { filter := "scale",
      options := FilterOptions.str "1080:1920",
      inputs := ["[0:v]"],
      outputs := "main_scaled" },
    { filter := "drawtext",
      options := FilterOptions.kv
        [("fontfile", fontPath cwd), ("text", transcript), ("fontsize", "48"),
         ("fontcolor", "white"), ("x", "(w-text_w)/2"), ("y", "50")],
      inputs := ["main_scaled"],
      outputs := "main_text" },
    { filter := "scale",
      options := FilterOptions.str "trunc(iw*300/ih):300",
      inputs := ["[1:v]"],
      outputs := "ss_scaled" },
    { filter := "overlay",
      options := FilterOptions.kv [("x", "0"), ("y", "main_text_h - overlay_h - 20")],
      inputs := ["main_text", "ss_scaled"],
      outputs := "final" } ]

/-- A single-quote String, used when rebuilding the quoted pieces of
the string-templated graph. -/
def sqStr : String := String.mk [quoteChar]

/-- The string-templated drawtext node of the first variant of the
source (line 75), with the escaped caption substituted in. -/
def drawtextDirective (cwd t : String) : String :=
  "drawtext=fontfile=" ++ sqStr ++ fontPath cwd ++ sqStr ++ ":text=" ++ sqStr
    ++ safeTranscript t ++ sqStr ++ String.mk afterTextOptions

/-- The whole string-templated filter graph of the first variant of
the source (lines 74 to 77). -/
def filterGraphString (cwd t : String) : String :=
  "[0:v]scale=1080:1920[main_scaled]; " ++
  "[main_scaled]" ++ drawtextDirective cwd t ++ "[main_text]; " ++
  "[1:v]scale=trunc(iw*300/ih):300[ss_scaled]; " ++
  "[main_text][ss_scaled]overlay=0:main_text_h-overlay_h-20[final]"

/-- The ffmpeg invocation issued by processSegmentWithFFmpeg in the
first variant of the source (lines 84 to 98): two inputs, the
string-templated graph with the requested terminal output, the audio
copy output option, and the save path. -/
structure FfmpegInvocation where
  inputs : List String
  filterGraph : String
  requestedOutput : String
  outputOptions : List String
  outputPath : String
deriving DecidableEq, Repr

/-- Embedding of processSegmentWithFFmpeg (first variant, lines 70 to
99) as the invocation it hands to the media engine. -/
def processSegmentWithFFmpeg (cwd inputPath outputPath transcript : String) :
    FfmpegInvocation :=
  { inputs := [inputPath, ssClipPath cwd],
    filterGraph := filterGraphString cwd transcript,
    requestedOutput := "final",
    outputOptions := ["-c:a copy"],
    outputPath := outputPath }

/-- The ffmpeg invocation issued by the second, declarative variant of
processSegmentWithFFmpeg (lines 260 to 309). -/
structure StructuredInvocation where
  inputs : List String
  nodes : List FilterNode
  requestedOutput : String
  outputOptions : List String
  outputPath : String
deriving DecidableEq, Repr

/-- Embedding of the declarative processSegmentWithFFmpeg variant. -/
def processSegmentStructured (cwd inputPath outputPath transcript : String) :
    StructuredInvocation :=
  { inputs := [inputPath, ssClipPath cwd],
    nodes := complexFilterNodes cwd transcript,
    requestedOutput := "final",
    outputOptions := ["-c:a copy"],
    outputPath := outputPath }

/-- Whether a graph input name is a raw input stream index reference. -/
def rawInputRef (s : String) : Bool := s == "[0:v]" || s == "[1:v]"

/-- The input references of a graph that are not the output name of
any node of the graph, that is, the references that select raw streams
of the original inputs. -/
def rawStreamRefs (ns : List FilterNode) : List String :=
  ((ns.map FilterNode.inputs).flatten).filter
    (fun s => !((ns.map FilterNode.outputs).contains s))

/-- Checks that every node input references either a raw input index
or the output name of an already declared node, walking the node list
in declaration order and accumulating declared output names. -/
def graphWellFormed : List String → List FilterNode → Bool
  | _, [] => true
  | declared, n :: ns =>
    (n.inputs.all fun i => rawInputRef i || declared.contains i) &&
      graphWellFormed (n.outputs :: declared) ns

/-- Claim C2: for every caption, the graph built by the source has
exactly 4 nodes in the fixed order scale to main_scaled, drawtext to
main_text, scale to ss_scaled, overlay to final; the last node is
named final; and every node input references a raw input index or a
previously declared output name, with no forward references. -/
theorem C2_graph_shape (cwd transcript : String) :
    (complexFilterNodes cwd transcript).length = 4 ∧
    (complexFilterNodes cwd transcript).map
        (fun n => (n.filter, n.inputs, n.outputs)) =
      [("scale", ["[0:v]"], "main_scaled"),
       ("drawtext", ["main_scaled"], "main_text"),
       ("scale", ["[1:v]"], "ss_scaled"),
       ("overlay", ["main_text", "ss_scaled"], "final")] ∧
    ((complexFilterNodes cwd transcript).get? 0).map FilterNode.options =
      some (FilterOptions.str "1080:1920") ∧
    ((complexFilterNodes cwd transcript).get? 2).map FilterNode.options =
      some (FilterOptions.str "trunc(iw*300/ih):300") ∧
    ((complexFilterNodes cwd transcript).getLast?).map FilterNode.outputs = some "final" ∧
    graphWellFormed [] (complexFilterNodes cwd transcript) = true :=
  ⟨rfl, rfl, rfl, rfl, rfl, rfl⟩

/-- The Filter Graph Builder contract of the spec: from the caption
(and the working directory holding the static assets) to the graph and
the terminal node name. -/
def buildFilter (cwd transcript : String) : List FilterNode × String :=
  (complexFilterNodes cwd transcript, "final")

/-- Claim C3: the Filter Graph Builder is a pure deterministic
function of the caption: two invocations with the same caption (and
the same working directory) produce identical graphs, and the terminal
node name returned is always final. -/
theorem C3_builder_deterministic (cwd t cwd2 t2 : String)
    (hc : cwd = cwd2) (ht : t = t2) :
    buildFilter cwd t = buildFilter cwd2 t2 ∧ (buildFilter cwd t).2 = "final" := by
  subst hc
  subst ht
  exact ⟨rfl, rfl⟩

theorem C3_builder_deterministic_witness :
    buildFilter "/app" "hello world" = buildFilter "/app" "hello world" ∧
    (buildFilter "/app" "hello world").2 = "final" :=
  C3_builder_deterministic "/app" "hello world" "/app" "hello world" rfl rfl

/-- Claim C8: every renderer invocation copies the audio track of the
primary input verbatim (output option -c:a copy) and requests exactly
the terminal node final as the graph output, in both the
string-templated and the declarative variant; and only video tracks
pass through the filter graph: every raw stream reference of the graph
selects a video stream of input 0 or input 1. -/
theorem C8_render_request (cwd inputPath outputPath transcript : String) :
    (processSegmentWithFFmpeg cwd inputPath outputPath transcript).outputOptions =
      ["-c:a copy"] ∧
    (processSegmentWithFFmpeg cwd inputPath outputPath transcript).requestedOutput =
      "final" ∧
    (processSegmentStructured cwd inputPath outputPath transcript).outputOptions =
      ["-c:a copy"] ∧
    (processSegmentStructured cwd inputPath outputPath transcript).requestedOutput =
      "final" ∧
    (rawStreamRefs (complexFilterNodes cwd transcript)).all rawInputRef = true :=
  ⟨rfl, rfl, rfl, rfl, rfl⟩

/-- One response of the transcription service status endpoint, as read
by the polling loop: the status field, the transcript text (meaningful
when completed) and the error message (meaningful on error). -/
structure PollResponse where
  status : String
  text : String
  error : String
deriving DecidableEq, Repr

/-- Outcome of getTranscript: the transcript text, or a thrown error
message. -/
inductive TResult where
  | text (t : String)
  | err (msg : String)
deriving DecidableEq, Repr

/-- Observable side effects of one request, recorded in order. -/
inductive Event where
  | mkdirSegments
  | splitInvoked
  | uploadFile (path : String)
  | requestTranscript (path : String)
  | sleep (ms : Nat)
  | pollRequest
  | renderInvoked (input output : String)
  | outputWritten (path : String)
  | fileDeleted (path : String)
deriving DecidableEq, Repr

/-- The polling loop of getTranscript (lines 44 to 63 of the source),
run against the finite sequence of status responses the environment
provides: a completed status returns the transcript text, an error
status throws, any other status continues with the next response. The
none outcome means every provided response was non-terminal and the
loop is still running. -/
def pollLoop : List PollResponse → Option TResult
  | [] => none
  | r :: rs =>
    if r.status = "completed" then some (TResult.text r.text)
    else if r.status = "error" then
      some (TResult.err ("Transcript API error: " ++ r.error))
    else pollLoop rs

/-- The events of the polling loop: each iteration first sleeps 5000
milliseconds, then issues one status request, and stops iterating on a
terminal status. -/
def pollTrace : List PollResponse → List Event
  | [] => []
  | r :: rs =>
    [Event.sleep 5000, Event.pollRequest] ++
      (if r.status = "completed" then []
       else if r.status = "error" then []
       else pollTrace rs)

/-- n poll iterations: each one a 5000 millisecond sleep followed by
one status request. -/
def sleepPollBlocks (n : Nat) : List Event :=
  (List.replicate n [Event.sleep 5000, Event.pollRequest]).flatten

theorem sleepPollBlocks_succ (n : Nat) :
    sleepPollBlocks (n + 1) =
      sleepPollBlocks n ++ [Event.sleep 5000, Event.pollRequest] := by
  simp [sleepPollBlocks, List.replicate_succ']

/-- A poll response that is neither completed nor error. -/
def nonTerminal (r : PollResponse) : Bool :=
  !(r.status == "completed") && !(r.status == "error")

theorem nonTerminal_status {r : PollResponse} (h : nonTerminal r = true) :
    r.status ≠ "completed" ∧ r.status ≠ "error" := by
  simpa [nonTerminal] using h

theorem pollLoop_nonterminal_append (pre : List PollResponse)
    (hpre : ∀ p ∈ pre, nonTerminal p = true) (xs : List PollResponse) :
    pollLoop (pre ++ xs) = pollLoop xs := by
  induction pre with
  | nil => rfl
  | cons r rs ih =>
    have hr := nonTerminal_status (hpre r (by simp))
    have hrs : ∀ p ∈ rs, nonTerminal p = true := fun p hp => hpre p (by simp [hp])
    simp [pollLoop, hr.1, hr.2, ih hrs]

theorem pollTrace_nonterminal_append (pre : List PollResponse)
    (hpre : ∀ p ∈ pre, nonTerminal p = true) (xs : List PollResponse) :
    pollTrace (pre ++ xs) = sleepPollBlocks pre.length ++ pollTrace xs := by
  induction pre with
  | nil => simp [sleepPollBlocks]
  | cons r rs ih =>
    have hr := nonTerminal_status (hpre r (by simp))
    have hrs : ∀ p ∈ rs, nonTerminal p = true := fun p hp => hpre p (by simp [hp])
    simp [pollTrace, hr.1, hr.2, ih hrs, sleepPollBlocks, List.replicate_succ]

/-- Claim C5: the polling loop sleeps a fixed 5000 millisecond
interval before each status request; after any prefix of non-terminal
statuses it is still looping, with one sleep before each of the polls
made so far and no retry bound; it returns the transcript text exactly
when a poll reports completed, and throws a terminal failure exactly
when a poll reports error, in both cases right at the first terminal
response. -/
theorem C5_polling_loop (pre : List PollResponse) (r : PollResponse)
    (rest : List PollResponse) (hpre : ∀ p ∈ pre, nonTerminal p = true) :
    (pollLoop pre = none ∧ pollTrace pre = sleepPollBlocks pre.length) ∧
    (r.status = "completed" →
      pollLoop (pre ++ r :: rest) = some (TResult.text r.text) ∧
      pollTrace (pre ++ r :: rest) = sleepPollBlocks (pre.length + 1)) ∧
    (r.status = "error" →
      pollLoop (pre ++ r :: rest) =
        some (TResult.err ("Transcript API error: " ++ r.error)) ∧
      pollTrace (pre ++ r :: rest) = sleepPollBlocks (pre.length + 1)) := by
  refine ⟨⟨?_, ?_⟩, fun hc => ⟨?_, ?_⟩, fun he => ⟨?_, ?_⟩⟩
  · have := pollLoop_nonterminal_append pre hpre []
    simpa using this
  · have := pollTrace_nonterminal_append pre hpre []
    simpa [pollTrace] using this
  · rw [pollLoop_nonterminal_append pre hpre]
    simp [pollLoop, hc]
  · rw [pollTrace_nonterminal_append pre hpre, sleepPollBlocks_succ]
    simp [pollTrace, hc]
  · rw [pollLoop_nonterminal_append pre hpre]
    have hne : r.status ≠ "completed" := by simp [he]
    simp [pollLoop, hne, he]
  · rw [pollTrace_nonterminal_append pre hpre, sleepPollBlocks_succ]
    have hne : r.status ≠ "completed" := by simp [he]
    simp [pollTrace, hne, he]

theorem C5_polling_loop_witness :
    (pollLoop [⟨"queued", "", ""⟩, ⟨"processing", "", ""⟩] = none ∧
      pollTrace [⟨"queued", "", ""⟩, ⟨"processing", "", ""⟩] = sleepPollBlocks 2) ∧
    (PollResponse.status ⟨"completed", "hi", ""⟩ = "completed" →
      pollLoop ([⟨"queued", "", ""⟩, ⟨"processing", "", ""⟩] ++
          (⟨"completed", "hi", ""⟩ : PollResponse) :: []) =
        some (TResult.text (PollResponse.text ⟨"completed", "hi", ""⟩)) ∧
      pollTrace ([⟨"queued", "", ""⟩, ⟨"processing", "", ""⟩] ++
          (⟨"completed", "hi", ""⟩ : PollResponse) :: []) = sleepPollBlocks (2 + 1)) ∧
    (PollResponse.status ⟨"completed", "hi", ""⟩ = "error" →
      pollLoop ([⟨"queued", "", ""⟩, ⟨"processing", "", ""⟩] ++
          (⟨"completed", "hi", ""⟩ : PollResponse) :: []) =
        some (TResult.err ("Transcript API error: " ++
          PollResponse.error ⟨"completed", "hi", ""⟩)) ∧
      pollTrace ([⟨"queued", "", ""⟩, ⟨"processing", "", ""⟩] ++
          (⟨"completed", "hi", ""⟩ : PollResponse) :: []) = sleepPollBlocks (2 + 1)) :=
  C5_polling_loop [⟨"queued", "", ""⟩, ⟨"processing", "", ""⟩]
    ⟨"completed", "hi", ""⟩ [] (by decide)

/-- True when the configured credential is absent or empty; embeds the
JavaScript falsiness test on process.env.ASSEMBLYAI_API_KEY at line 22
of the source (undefined and the empty string are both falsy). -/
def keyMissing : Option String → Bool
  | none => true
  | some s => s.isEmpty

/-- The configuration error message thrown at line 22 of the source. -/
def cfgMsg : String := "Missing AssemblyAI API key in environment variables."

/-- Embedding of getTranscript (lines 18 to 64 of the source) against
an environment-provided sequence of poll responses: with a missing
credential it throws immediately with no side effect; otherwise it
uploads the file, requests a transcription job, and runs the polling
loop. The none outcome means the polling loop is still running after
the provided responses. -/
def getTranscript (apiKey : Option String) (polls : List PollResponse)
    (filePath : String) : Option TResult × List Event :=
  if keyMissing apiKey then (some (TResult.err cfgMsg), [])
  else
    (pollLoop polls,
     [Event.uploadFile filePath, Event.requestTranscript filePath] ++ pollTrace polls)

/-- Whether the render invocation of one segment succeeds, as decided
by the environment (the media engine). -/
inductive RenderResult where
  | ok
  | fail (msg : String)
deriving DecidableEq, Repr

/-- Environment-decided behavior of the external services for one
segment: the poll responses of its transcription job and the outcome
of its render. -/
structure SegBehavior where
  polls : List PollResponse
  render : RenderResult
deriving DecidableEq, Repr

/-- Behavior used when the environment provides none (an unspecified
external service, which leaves the polling loop running forever). -/
def defaultBehavior : SegBehavior := ⟨[], RenderResult.ok⟩

/-- The prefix "processed_" that names the output of a segment (line
167 of the source), also the identifier pushed into the result list. -/
def procName (f : String) : String := "processed_" ++ f

/-- Outcome of the per-segment loop of the handler. -/
inductive LoopOutcome where
  | done (processed : List String)
  | failed (msg : String)
  | hung
deriving DecidableEq, Repr

/-- Result of the per-segment loop: its outcome plus its events. -/
structure LoopResult where
  outcome : LoopOutcome
  events : List Event
deriving DecidableEq, Repr

/-- Embedding of the per-segment for loop of the handler (lines 162 to
170 of the source): for each listed segment file in order, obtain its
transcript, then render it, appending the processed name to the result
list; the first thrown error aborts the rest. The behaviors list is
consumed positionally alongside the files. -/
def processLoop (apiKey : Option String) (dir : String) :
    List String → List SegBehavior → LoopResult
  | [], _ => ⟨LoopOutcome.done [], []⟩
  | f :: fs, bs =>
    let b := bs.headD defaultBehavior
    let segPath := dir ++ "/" ++ f
    let tr := getTranscript apiKey b.polls segPath
    match tr.1 with
    | none => ⟨LoopOutcome.hung, tr.2⟩
    | some (TResult.err e) => ⟨LoopOutcome.failed e, tr.2⟩
    | some (TResult.text _) =>
      let outPath := dir ++ "/" ++ procName f
      let evs1 := tr.2 ++ [Event.renderInvoked segPath outPath]
      match b.render with
      | RenderResult.fail e => ⟨LoopOutcome.failed e, evs1⟩
      | RenderResult.ok =>
        let r := processLoop apiKey dir fs bs.tail
        match r.outcome with
        | LoopOutcome.done ps =>
          ⟨LoopOutcome.done (procName f :: ps),
           evs1 ++ [Event.outputWritten outPath] ++ r.events⟩
        | LoopOutcome.failed e =>
          ⟨LoopOutcome.failed e, evs1 ++ [Event.outputWritten outPath] ++ r.events⟩
        | LoopOutcome.hung =>
          ⟨LoopOutcome.hung, evs1 ++ [Event.outputWritten outPath] ++ r.events⟩

/-- The JavaScript endsWith test of line 158 of the source, embedded
structurally over the character lists of the two strings (it agrees
with the byte-level library test on every input). -/
def strEndsWith (s suffix : String) : Bool := List.isSuffixOf suffix.data s.data

/-- Whether the splitter invocation succeeds, as decided by the
environment (the media engine). -/
inductive SplitResult where
  | ok
  | fail (msg : String)
deriving DecidableEq, Repr

/-- The JSON body of the handler response: either the processed
segment list or an error payload. -/
inductive Body where
  | segments (l : List String)
  | error (msg : String)
deriving DecidableEq, Repr

/-- An HTTP response of the handler: status code and JSON body. -/
structure Response where
  status : Nat
  body : Body
deriving DecidableEq, Repr

/-- The environment of one request: everything outside the embedded
control flow that the source reads, including what the directory
listing returns (readdirSync gives entries in filesystem order, which
the source does not sort). -/
structure RequestEnv where
  method : String
  parseOk : Bool
  uploadPath : String
  apiKey : Option String
  segmentsDir : String
  splitResult : SplitResult
  listing : List String
deriving DecidableEq, Repr

/-- Embedding of the API route handler (lines 135 to 180 of the
source): reject non-POST methods, reject a failed upload parse, create
the scratch directory, split the upload, list the segment files
filtered to the .mp4 extension (in listing order, unsorted), process
them in order, and either respond 200 with the processed list and
delete the original upload, or respond 500 with the first error
message and delete nothing. A none response means the handler never
responds (a transcription job that never terminates). -/
def handler (env : RequestEnv) (bs : List SegBehavior) :
    Option Response × List Event :=
  if env.method ≠ "POST" then
    (some ⟨405, Body.error "Method Not Allowed"⟩, [])
  else if !env.parseOk then
    (some ⟨400, Body.error "Failed to parse upload or no video provided."⟩, [])
  else
    match env.splitResult with
    | SplitResult.fail e =>
      (some ⟨500, Body.error e⟩, [Event.mkdirSegments, Event.splitInvoked])
    | SplitResult.ok =>
      let files := env.listing.filter (fun f => strEndsWith f (".mp4"))
      let r := processLoop env.apiKey env.segmentsDir files bs
      match r.outcome with
      | LoopOutcome.done ps =>
        (some ⟨200, Body.segments ps⟩,
         [Event.mkdirSegments, Event.splitInvoked] ++ r.events ++
           [Event.fileDeleted env.uploadPath])
      | LoopOutcome.failed e =>
        (some ⟨500, Body.error e⟩,
         [Event.mkdirSegments, Event.splitInvoked] ++ r.events)
      | LoopOutcome.hung =>
        (none, [Event.mkdirSegments, Event.splitInvoked] ++ r.events)

/-- Whether the polling loop of a behavior delivers a transcript. -/
def pollGivesText : Option TResult → Bool
  | some (TResult.text _) => true
  | _ => false

/-- A behavior under which one segment processes successfully: its
polling loop delivers a transcript and its render succeeds. -/
def behOk (b : SegBehavior) : Bool :=
  pollGivesText (pollLoop b.polls) && (b.render == RenderResult.ok)

/-- The error message with which a behavior makes one segment fail:
the polling error if the transcription job errors, otherwise the
render error if the render fails; none when the segment would succeed
or hang. -/
def behFail (b : SegBehavior) : Option String :=
  match pollLoop b.polls with
  | some (TResult.err e) => some e
  | some (TResult.text _) =>
    match b.render with
    | RenderResult.ok => none
    | RenderResult.fail e => some e
  | none => none

/-- Prepends already-processed names to a done outcome and leaves a
failure or hang unchanged. -/
def prependDone (l : List String) : LoopOutcome → LoopOutcome
  | LoopOutcome.done ps => LoopOutcome.done (l ++ ps)
  | o => o

theorem prependDone_nil (o : LoopOutcome) : prependDone [] o = o := by
  cases o <;> rfl

/-- The events of one successfully processed segment. -/
def okSegEvents (apiKey : Option String) (dir f : String) (b : SegBehavior) :
    List Event :=
  (getTranscript apiKey b.polls (dir ++ "/" ++ f)).2 ++
    [Event.renderInvoked (dir ++ "/" ++ f) (dir ++ "/" ++ procName f),
     Event.outputWritten (dir ++ "/" ++ procName f)]

/-- The events of a prefix of successfully processed segments. -/
def prefixEvents (apiKey : Option String) (dir : String) :
    List String → List SegBehavior → List Event
  | [], _ => []
  | _ :: _, [] => []
  | f :: fs, b :: bs => okSegEvents apiKey dir f b ++ prefixEvents apiKey dir fs bs

theorem behOk_elim {b : SegBehavior} (h : behOk b = true) :
    (∃ t, pollLoop b.polls = some (TResult.text t)) ∧ b.render = RenderResult.ok := by
  rcases Bool.and_eq_true .. |>.mp h with ⟨h1, h2⟩
  refine ⟨?_, by simpa using h2⟩
  cases hp : pollLoop b.polls with
  | none => rw [hp] at h1; simp [pollGivesText] at h1
  | some tr =>
    cases tr with
    | err e => rw [hp] at h1; simp [pollGivesText] at h1
    | text t => exact ⟨t, rfl⟩

theorem processLoop_append (apiKey : Option String) (dir : String)
    (hkey : keyMissing apiKey = false) :
    ∀ (pre : List String) (preBs : List SegBehavior) (fs : List String)
      (bs : List SegBehavior), pre.length = preBs.length →
      (∀ b ∈ preBs, behOk b = true) →
      processLoop apiKey dir (pre ++ fs) (preBs ++ bs) =
        ⟨prependDone (pre.map procName) (processLoop apiKey dir fs bs).outcome,
         prefixEvents apiKey dir pre preBs ++ (processLoop apiKey dir fs bs).events⟩ := by
  intro pre
  induction pre with
  | nil =>
    intro preBs fs bs hlen _
    have hnil : preBs = [] := List.length_eq_zero.mp hlen.symm
    subst hnil
    simp only [List.nil_append, prefixEvents, List.map_nil, prependDone_nil]
  | cons f fs2 ih =>
    intro preBs fs bs hlen hok
    cases preBs with
    | nil => simp at hlen
    | cons b preBs2 =>
      obtain ⟨⟨t, hpoll⟩, hrender⟩ := behOk_elim (hok b (by simp))
      have hok2 : ∀ b2 ∈ preBs2, behOk b2 = true := fun b2 hb2 =>
        hok b2 (List.mem_cons_of_mem _ hb2)
      have ih2 := ih preBs2 fs bs (Nat.succ.inj hlen) hok2
      simp only [List.cons_append, processLoop, List.headD_cons, List.tail_cons,
        getTranscript, hkey, Bool.false_eq_true, if_false, hpoll, hrender,
        List.append_eq]
      rw [ih2]
      cases ho : (processLoop apiKey dir fs bs).outcome <;>
        simp [prependDone, prefixEvents, okSegEvents, getTranscript, hkey, ho,
          List.append_assoc]

/-- Recognizes an output-written event. -/
def isOutputWritten : Event → Bool
  | Event.outputWritten _ => true
  | _ => false

theorem pollTrace_mem (rs : List PollResponse) (e : Event) (he : e ∈ pollTrace rs) :
    e = Event.sleep 5000 ∨ e = Event.pollRequest := by
  induction rs with
  | nil => simp [pollTrace] at he
  | cons r rs ih =>
    simp only [pollTrace, List.cons_append, List.nil_append, List.mem_cons] at he
    rcases he with h1 | h1 | h1
    · exact Or.inl h1
    · exact Or.inr h1
    · split at h1
      · simp at h1
      · split at h1
        · simp at h1
        · exact ih h1

theorem getTranscript_events_mem (apiKey : Option String) (polls : List PollResponse)
    (fp : String) (e : Event) (he : e ∈ (getTranscript apiKey polls fp).2) :
    e = Event.uploadFile fp ∨ e = Event.requestTranscript fp ∨
      e = Event.sleep 5000 ∨ e = Event.pollRequest := by
  by_cases hk : keyMissing apiKey = true
  · simp [getTranscript, hk] at he
  · rw [getTranscript, if_neg hk] at he
    simp only [List.cons_append, List.nil_append, List.mem_cons] at he
    rcases he with h1 | h1 | h1
    · exact Or.inl h1
    · exact Or.inr (Or.inl h1)
    · exact Or.inr (Or.inr (pollTrace_mem polls e h1))

theorem getTranscript_no_fileDeleted (apiKey : Option String)
    (polls : List PollResponse) (fp p : String) :
    Event.fileDeleted p ∉ (getTranscript apiKey polls fp).2 := by
  intro h
  rcases getTranscript_events_mem apiKey polls fp _ h with h1 | h1 | h1 | h1 <;>
    simp at h1

theorem getTranscript_filter_output (apiKey : Option String)
    (polls : List PollResponse) (fp : String) :
    ((getTranscript apiKey polls fp).2).filter isOutputWritten = [] := by
  rw [List.filter_eq_nil]
  intro e he
  rcases getTranscript_events_mem apiKey polls fp e he with h1 | h1 | h1 | h1 <;>
    simp [h1, isOutputWritten]

theorem prefixEvents_filter_output (apiKey : Option String) (dir : String) :
    ∀ (pre : List String) (preBs : List SegBehavior), pre.length = preBs.length →
      (prefixEvents apiKey dir pre preBs).filter isOutputWritten =
        pre.map (fun f => Event.outputWritten (dir ++ "/" ++ procName f)) := by
  intro pre
  induction pre with
  | nil => intro preBs _; simp [prefixEvents]
  | cons f fs ih =>
    intro preBs hlen
    cases preBs with
    | nil => simp at hlen
    | cons b bs2 =>
      simp only [prefixEvents, okSegEvents, List.filter_append]
      rw [getTranscript_filter_output, ih bs2 (Nat.succ.inj hlen)]
      simp [isOutputWritten, List.filter]

theorem prefixEvents_no_fileDeleted (apiKey : Option String) (dir : String) :
    ∀ (pre : List String) (preBs : List SegBehavior) (p : String),
      Event.fileDeleted p ∉ prefixEvents apiKey dir pre preBs := by
  intro pre
  induction pre with
  | nil => intro preBs p; simp [prefixEvents]
  | cons f fs ih =>
    intro preBs p
    cases preBs with
    | nil => simp [prefixEvents]
    | cons b bs2 =>
      simp only [prefixEvents, okSegEvents, List.mem_append, List.mem_cons]
      push_neg
      refine ⟨⟨getTranscript_no_fileDeleted apiKey b.polls _ p, by simp, by simp⟩, ?_⟩
      simpa using ih bs2 p

theorem processLoop_no_fileDeleted (apiKey : Option String) (dir : String) :
    ∀ (fs : List String) (bs : List SegBehavior) (p : String),
      Event.fileDeleted p ∉ (processLoop apiKey dir fs bs).events := by
  intro fs
  induction fs with
  | nil => intro bs p; simp [processLoop]
  | cons f fs ih =>
    intro bs p
    simp only [processLoop]
    split
    · exact getTranscript_no_fileDeleted apiKey _ _ p
    · exact getTranscript_no_fileDeleted apiKey _ _ p
    · split
      · simp [List.mem_append, getTranscript_no_fileDeleted]
      · split <;> simp [List.mem_append, getTranscript_no_fileDeleted, ih]

theorem getTranscript_fst (apiKey : Option String) (polls : List PollResponse)
    (fp : String) (hk : keyMissing apiKey = false) :
    (getTranscript apiKey polls fp).1 = pollLoop polls := by
  simp [getTranscript, hk]

theorem processLoop_fail_head (apiKey : Option String) (dir : String)
    (hkey : keyMissing apiKey = false) (f : String) (post : List String)
    (b : SegBehavior) (postBs : List SegBehavior) (e : String)
    (hfail : behFail b = some e) :
    (processLoop apiKey dir (f :: post) (b :: postBs)).outcome =
      LoopOutcome.failed e ∧
    ((processLoop apiKey dir (f :: post) (b :: postBs)).events).filter
      isOutputWritten = [] := by
  cases hpoll : pollLoop b.polls with
  | none =>
    simp only [behFail, hpoll] at hfail
    exact Option.noConfusion hfail
  | some tr =>
    cases tr with
    | err e0 =>
      simp only [behFail, hpoll, Option.some.injEq] at hfail
      subst hfail
      simp only [processLoop, List.headD_cons,
        getTranscript_fst apiKey b.polls (dir ++ "/" ++ f) hkey, hpoll]
      exact ⟨trivial, getTranscript_filter_output apiKey b.polls (dir ++ "/" ++ f)⟩
    | text t =>
      cases hrender : b.render with
      | ok =>
        simp only [behFail, hpoll, hrender] at hfail
        exact Option.noConfusion hfail
      | fail e0 =>
        simp only [behFail, hpoll, hrender, Option.some.injEq] at hfail
        subst hfail
        simp only [processLoop, List.headD_cons,
          getTranscript_fst apiKey b.polls (dir ++ "/" ++ f) hkey, hpoll, hrender]
        refine ⟨trivial, ?_⟩
        rw [List.filter_append, getTranscript_filter_output]
        simp [isOutputWritten]

/-- Claim C7: when the listed segments are a successful prefix pre, a
failing segment f (failing in transcription or in render with message
e), and a remainder post, the handler leaves written outputs exactly
for the segments of pre, writes no output for f or any later segment,
deletes nothing (neither the processed outputs nor the upload, so
nothing is rolled back), and responds with the single terminal error
of the failing segment rather than any partial success list. -/
theorem C7_first_failure_aborts (env : RequestEnv) (pre post : List String)
    (f : String) (preBs postBs : List SegBehavior) (b : SegBehavior) (e : String)
    (hm : env.method = "POST") (hp : env.parseOk = true)
    (hs : env.splitResult = SplitResult.ok)
    (hk : keyMissing env.apiKey = false)
    (hl : env.listing.filter (fun s => strEndsWith s (".mp4")) = pre ++ f :: post)
    (hlen : pre.length = preBs.length)
    (hok : ∀ b2 ∈ preBs, behOk b2 = true)
    (hfail : behFail b = some e) :
    (handler env (preBs ++ b :: postBs)).1 = some ⟨500, Body.error e⟩ ∧
    ((handler env (preBs ++ b :: postBs)).2).filter isOutputWritten =
      pre.map (fun g => Event.outputWritten (env.segmentsDir ++ "/" ++ procName g)) ∧
    ∀ p, Event.fileDeleted p ∉ (handler env (preBs ++ b :: postBs)).2 := by
  have happ := processLoop_append env.apiKey env.segmentsDir hk pre preBs
    (f :: post) (b :: postBs) hlen hok
  have hhead := processLoop_fail_head env.apiKey env.segmentsDir hk f post b postBs
    e hfail
  have hcomp : handler env (preBs ++ b :: postBs) =
      (some ⟨500, Body.error e⟩,
       [Event.mkdirSegments, Event.splitInvoked] ++
         (prefixEvents env.apiKey env.segmentsDir pre preBs ++
           (processLoop env.apiKey env.segmentsDir (f :: post) (b :: postBs)).events)) := by
    simp only [handler, hm, hp, hs, hl, happ]
    rw [hhead.1]
    simp [prependDone]
  refine ⟨by rw [hcomp], ?_, ?_⟩
  · rw [hcomp]
    simp only [List.filter_append]
    rw [prefixEvents_filter_output env.apiKey env.segmentsDir pre preBs hlen, hhead.2]
    simp [isOutputWritten, List.filter]
  · intro p
    rw [hcomp]
    simp [List.mem_append, prefixEvents_no_fileDeleted, processLoop_no_fileDeleted]

/-- Modelled from the spec: splitVideo passes the fixed zero-padded
output pattern segment_%03d.mp4 to the engine (line 117 of the
source); the segment files themselves are written by the external
media engine following that pattern, reproduced here for indices as a
printf style %03d rendering. -/
def pad3 (i : Nat) : String :=
  if i < 10 then "00" ++ Nat.repr i
  else if i < 100 then "0" ++ Nat.repr i
  else Nat.repr i

/-- The name of the i-th chunk the splitter produces. -/
def segmentName (i : Nat) : String := "segment_" ++ pad3 i ++ ".mp4"

/-- A behavior whose transcription completes at the first poll and
whose render succeeds. -/
def okBeh : SegBehavior := { polls := [⟨"completed", "hi", ""⟩], render := RenderResult.ok }

/-- A behavior whose transcription job reports the error status. -/
def failBeh : SegBehavior := { polls := [⟨"error", "", "boom"⟩], render := RenderResult.ok }

/-- A well-formed POST environment with three listed segments. -/
def envThreeSegs : RequestEnv :=
  { method := "POST", parseOk := true, uploadPath := "/tmp/upload.mp4",
    apiKey := some "key", segmentsDir := "/tmp/seg", splitResult := SplitResult.ok,
    listing := ["segment_000.mp4", "segment_001.mp4", "segment_002.mp4"] }

theorem C7_first_failure_aborts_witness :
    (handler envThreeSegs [okBeh, failBeh, okBeh]).1 =
      some ⟨500, Body.error "Transcript API error: boom"⟩ ∧
    ((handler envThreeSegs [okBeh, failBeh, okBeh]).2).filter isOutputWritten =
      ["segment_000.mp4"].map
        (fun g => Event.outputWritten (envThreeSegs.segmentsDir ++ "/" ++ procName g)) ∧
    ∀ p, Event.fileDeleted p ∉ (handler envThreeSegs [okBeh, failBeh, okBeh]).2 :=
  C7_first_failure_aborts envThreeSegs ["segment_000.mp4"] ["segment_002.mp4"]
    "segment_001.mp4" [okBeh] [okBeh] failBeh "Transcript API error: boom"
    rfl rfl rfl (by decide) (by decide) rfl (by decide) (by decide)

/-- A POST environment whose directory listing presents the two
segment files in reversed order, as an unsorted readdir may. -/
def envListingReversed : RequestEnv :=
  { method := "POST", parseOk := true, uploadPath := "/tmp/upload.mp4",
    apiKey := some "key", segmentsDir := "/tmp/seg", splitResult := SplitResult.ok,
    listing := ["segment_001.mp4", "segment_000.mp4"] }

/-- Claim C6 (counterexample): the handler does not sort the directory
listing, so when readdir returns the two segment files in reversed
order the first entry of the result list is the processed output of
segment 1, not of segment 0: the k-th result entry is not the
processed output of the k-th segment. -/
theorem C6_counterexample :
    (handler envListingReversed [okBeh, okBeh]).1 =
      some ⟨200, Body.segments
        ["processed_segment_001.mp4", "processed_segment_000.mp4"]⟩ ∧
    "processed_segment_001.mp4" ≠ procName (segmentName 0) ∧
    "processed_segment_001.mp4" = procName (segmentName 1) := by decide

/-- Claim C6 (amended): the orchestrator enumerates the segment files
by a directory listing filtered to the .mp4 extension in listing order
and does not sort it; when the filtered listing presents the
zero-padded splitter names in sequence order, the k-th entry of the
result list is the processed output of the k-th segment. -/
theorem C6_order_follows_listing (env : RequestEnv) (bs : List SegBehavior) (n : Nat)
    (hm : env.method = "POST") (hp : env.parseOk = true)
    (hs : env.splitResult = SplitResult.ok)
    (hk : keyMissing env.apiKey = false)
    (hl : env.listing.filter (fun s => strEndsWith s (".mp4")) =
      (List.range n).map segmentName)
    (hlen : n ≤ bs.length)
    (hok : ∀ b ∈ bs, behOk b = true) :
    (handler env bs).1 =
      some ⟨200, Body.segments (((List.range n).map segmentName).map procName)⟩ ∧
    ∀ k, k < n → (((List.range n).map segmentName).map procName).get? k =
      some (procName (segmentName k)) := by
  constructor
  · have hlen2 : ((List.range n).map segmentName).length = (bs.take n).length := by
      simp [List.length_take, Nat.min_eq_left hlen]
    have hok2 : ∀ b ∈ bs.take n, behOk b = true := fun b hb =>
      hok b (List.take_subset n bs hb)
    have happ := processLoop_append env.apiKey env.segmentsDir hk
      ((List.range n).map segmentName) (bs.take n) [] (bs.drop n) hlen2 hok2
    rw [List.append_nil, List.take_append_drop] at happ
    simp only [handler, hm, hp, hs, hl, happ]
    simp [processLoop, prependDone]
  · intro k hk2
    rw [List.get?_eq_getElem?, List.getElem?_map, List.getElem?_map,
      List.getElem?_range hk2]
    rfl

/-- A POST environment whose directory listing presents the two
segment files in sequence order. -/
def envListingSorted : RequestEnv :=
  { method := "POST", parseOk := true, uploadPath := "/tmp/upload.mp4",
    apiKey := some "key", segmentsDir := "/tmp/seg", splitResult := SplitResult.ok,
    listing := ["segment_000.mp4", "segment_001.mp4"] }

theorem C6_order_follows_listing_witness :
    (handler envListingSorted [okBeh, okBeh]).1 =
      some ⟨200, Body.segments (((List.range 2).map segmentName).map procName)⟩ ∧
    ∀ k, k < 2 → (((List.range 2).map segmentName).map procName).get? k =
      some (procName (segmentName k)) :=
  C6_order_follows_listing envListingSorted [okBeh, okBeh] 2 rfl rfl rfl
    (by decide) (by decide) (by decide) (by decide)

/-- A POST environment with no configured credential. -/
def envNoKey : RequestEnv :=
  { method := "POST", parseOk := true, uploadPath := "/tmp/upload.mp4",
    apiKey := none, segmentsDir := "/tmp/seg", splitResult := SplitResult.ok,
    listing := ["segment_000.mp4"] }

/-- Claim C4 (counterexample): with no credential configured the
request does fail with the configuration error, but splitting has
already happened for that request: the trace of the run contains the
splitter invocation, contradicting that no split occurs. -/
theorem C4_counterexample :
    (handler envNoKey []).1 = some ⟨500, Body.error cfgMsg⟩ ∧
    Event.splitInvoked ∈ (handler envNoKey []).2 := by decide

/-- Claim C4 (amended): when no transcription credential is
configured, the pipeline fails with the configuration error at the
first segment transcription, before any transcription upload,
transcription request, render, output write, or upload deletion; but
only after the scratch directory is created and the upload is split:
the trace of the run is exactly the directory creation followed by the
splitter invocation. -/
theorem C4_config_error_after_split (env : RequestEnv) (bs : List SegBehavior)
    (f : String) (fs : List String)
    (hm : env.method = "POST") (hp : env.parseOk = true)
    (hs : env.splitResult = SplitResult.ok)
    (hk : keyMissing env.apiKey = true)
    (hl : env.listing.filter (fun s => strEndsWith s (".mp4")) = f :: fs) :
    handler env bs = (some ⟨500, Body.error cfgMsg⟩,
      [Event.mkdirSegments, Event.splitInvoked]) := by
  simp only [handler, hm, hp, hs, hl]
  simp [processLoop, getTranscript, hk]

theorem C4_config_error_after_split_witness :
    handler envNoKey [] = (some ⟨500, Body.error cfgMsg⟩,
      [Event.mkdirSegments, Event.splitInvoked]) :=
  C4_config_error_after_split envNoKey [] "segment_000.mp4" [] rfl rfl rfl rfl
    (by decide)

/-- A POST environment with one listed segment, used with a failing
behavior. -/
def envOneSeg : RequestEnv :=
  { method := "POST", parseOk := true, uploadPath := "/tmp/upload.mp4",
    apiKey := some "key", segmentsDir := "/tmp/seg", splitResult := SplitResult.ok,
    listing := ["segment_000.mp4"] }

/-- Claim C9 (counterexample): a request that enters the pipeline and
fails (here the transcription job of its only segment reports the
error status) is answered 500, and the trace contains no deletion of
the uploaded file: the upload is not deleted in the failure outcome. -/
theorem C9_counterexample :
    ((handler envOneSeg [failBeh]).1).map Response.status = some 500 ∧
    Event.fileDeleted envOneSeg.uploadPath ∉ (handler envOneSeg [failBeh]).2 := by
  decide

/-- Claim C9 (amended): the original upload is deleted exactly when
the pipeline completes successfully (a 200 response): on a rejected
method, a failed parse, a split failure, any per-segment failure, and
on a never-terminating transcription job, the uploaded file is not
deleted. -/
theorem C9_upload_deleted_iff_success (env : RequestEnv) (bs : List SegBehavior) :
    (Event.fileDeleted env.uploadPath ∈ (handler env bs).2) ↔
      ((handler env bs).1).map Response.status = some 200 := by
  by_cases hm : env.method = "POST"
  · cases hp : env.parseOk with
    | false => simp [handler, hm, hp]
    | true =>
      cases hs : env.splitResult with
      | fail e => simp [handler, hm, hp, hs]
      | ok =>
        have hnd := processLoop_no_fileDeleted env.apiKey env.segmentsDir
          (env.listing.filter (fun f => strEndsWith f (".mp4"))) bs env.uploadPath
        cases ho : (processLoop env.apiKey env.segmentsDir
            (env.listing.filter (fun f => strEndsWith f (".mp4"))) bs).outcome with
        | done ps => simp [handler, hm, hp, hs, ho]
        | failed e => simp [handler, hm, hp, hs, ho, hnd]
        | hung => simp [handler, hm, hp, hs, ho, hnd]
  · simp [handler, hm]

/-- Claim C10: a request whose method is not POST is answered 405 with
an error payload, and the run has no side effects at all: the event
trace is empty, so no upload parsing, directory creation, splitting,
transcription, or rendering occurs. -/
theorem C10_non_post_rejected (env : RequestEnv) (bs : List SegBehavior)
    (h : env.method ≠ "POST") :
    handler env bs = (some ⟨405, Body.error "Method Not Allowed"⟩, []) := by
  simp [handler, h]

/-- A GET environment. -/
def envGet : RequestEnv :=
  { method := "GET", parseOk := true, uploadPath := "/tmp/upload.mp4",
    apiKey := some "key", segmentsDir := "/tmp/seg", splitResult := SplitResult.ok,
    listing := [] }

theorem C10_non_post_rejected_witness :
    handler envGet [] = (some ⟨405, Body.error "Method Not Allowed"⟩, []) :=
  C10_non_post_rejected envGet [] (by decide)
